import Mathlib

/-!
Shallow embedding of the notebook-watcher and hover-provider logic of the
vscode-jupyter extension:
  src/client/datascience/variablesView/notebookWatcher.ts
  src/client/datascience/editor-integration/hoverProvider.ts
URIs are modelled as strings (`Uri.toString()` is the identity), and the
file system's `arePathsSame` predicate is an explicit boolean-relation
parameter, since its behaviour (e.g. case sensitivity) depends on the host
platform.
-/

/-- URIs; `toString` is the identity under this model. -/
abbrev Uri := String

/-- The type of the file system's arePathsSame predicate. -/
abbrev SameRel := Uri → Uri → Bool

/-- arePathsSame is an equivalence: reflexive, symmetric and transitive. -/
def PathEquiv (same : SameRel) : Prop :=
  (∀ a, same a a = true) ∧
  (∀ a b, same a b = same b a) ∧
  (∀ a b c, same a b = true → same b c = true → same a c = true)

/-- `interface IExecutionCountEntry { uri: Uri; executionCount: number }` -/
structure IExecutionCountEntry where
  uri : Uri
  executionCount : Nat
  deriving Repr, DecidableEq

/-- `KernelState` from notebookExtensibility (only the states the watcher
inspects). -/
inductive KernelState where
  | executed
  | restarted
  deriving Repr, DecidableEq

/-- `NotebookCellExecutionSummary` with its optional `executionOrder`. -/
structure ExecutionSummary where
  executionOrder : Option Nat
  deriving Repr, DecidableEq

/-- A notebook cell, keeping only the optional `executionSummary` field the
watcher reads. -/
structure NotebookCell where
  executionSummary : Option ExecutionSummary
  deriving Repr, DecidableEq

/-- `KernelStateEventArgs`: resource, state, optional cell, optional silent
flag. -/
structure KernelStateEventArgs where
  resource : Uri
  state : KernelState
  cell : Option NotebookCell
  silent : Option Bool
  deriving Repr, DecidableEq

/-- JavaScript truthiness of an optional number: `undefined` and `0` are
falsy. -/
def natOptTruthy : Option Nat → Bool
  | none => false
  | some n => n != 0

/-- JavaScript truthiness of an optional boolean: `undefined` is falsy. -/
def boolOptTruthy : Option Bool → Bool
  | none => false
  | some b => b

/-- The optional chain `kernelStateEvent.cell?.executionSummary?.executionOrder`. -/
def eventExecutionOrder (ev : KernelStateEventArgs) : Option Nat :=
  ev.cell.bind fun c => c.executionSummary.bind fun s => s.executionOrder

/-- `isNonSilentExecution`: state is executed, the cell exists, its execution
order is truthy, and the event is not silent. -/
def isNonSilentExecution (ev : KernelStateEventArgs) : Bool :=
  match ev.state, ev.cell with
  | KernelState.executed, some c =>
      natOptTruthy (c.executionSummary.bind fun s => s.executionOrder) &&
        !(boolOptTruthy ev.silent)
  | _, _ => false

/-- `getExecutionCount`: first tracker entry whose uri is the same path. -/
def getExecutionCount (same : SameRel) (tracker : List IExecutionCountEntry)
    (uri : Uri) : Option IExecutionCountEntry :=
  tracker.find? fun v => same uri v.uri

/-- The executionCount stored for a uri, when an entry exists. -/
def getExecutionCountValue (same : SameRel) (tracker : List IExecutionCountEntry)
    (uri : Uri) : Option Nat :=
  (getExecutionCount same tracker uri).map fun e => e.executionCount

/-- Mutating the first entry whose uri is the same path, setting its
executionCount to the new value (`executionCount.executionCount = newValue`). -/
def setFirstExecutionCount (same : SameRel) (uri : Uri) (newValue : Nat) :
    List IExecutionCountEntry → List IExecutionCountEntry
  | [] => []
  | e :: rest =>
      if same uri e.uri then { e with executionCount := newValue } :: rest
      else e :: setFirstExecutionCount same uri newValue rest

/-- `updateExecutionCount`: push a fresh entry when none matches, otherwise
overwrite the matching entry's count in place. -/
def updateExecutionCount (same : SameRel) (tracker : List IExecutionCountEntry)
    (uri : Uri) (newValue : Nat) : List IExecutionCountEntry :=
  match getExecutionCount same tracker uri with
  | none => tracker ++ [{ uri := uri, executionCount := newValue }]
  | some _ => setFirstExecutionCount same uri newValue tracker

/-- `deleteExecutionCount`: drop every entry whose uri is the same path. -/
def deleteExecutionCount (same : SameRel) (tracker : List IExecutionCountEntry)
    (uri : Uri) : List IExecutionCountEntry :=
  tracker.filter fun v => !(same uri v.uri)

/-- `INotebookEditor`, keeping `file` and the possibly-undefined `notebook`. -/
structure NotebookEditor (Nb : Type) where
  file : Uri
  notebook : Option Nb

/-- `IInteractiveWindow`, keeping the optional `notebookUri`. -/
structure InteractiveWindow where
  notebookUri : Option Uri

/-- The host state the watcher reads: the active notebook editor, the active
text editor's document uri, the interactive-window lookup
(`interactiveWindowProvider.get`), the uris of `workspace.notebookDocuments`,
and `kernelProvider.get(doc)?.notebook` keyed by document uri. -/
structure WatcherEnv (Nb : Type) where
  activeEditor : Option (NotebookEditor Nb)
  activeTextEditorUri : Option Uri
  interactiveWindows : Uri → Option InteractiveWindow
  notebookDocuments : List Uri
  kernelNotebook : Uri → Option Nb

/-- `getActiveInteractiveWindow`: undefined without an active text editor,
otherwise `interactiveWindowProvider.get(textDocumentUri)`. -/
def getActiveInteractiveWindow {Nb : Type} (env : WatcherEnv Nb) :
    Option InteractiveWindow :=
  env.activeTextEditorUri.bind env.interactiveWindows

/-- `getActiveInteractiveWindowNotebook`: find the workspace notebook document
whose uri string equals the active interactive window's notebookUri string,
then return its kernel's notebook. -/
def getActiveInteractiveWindowNotebook {Nb : Type} (env : WatcherEnv Nb) :
    Option Nb :=
  let interactiveWindow := getActiveInteractiveWindow env
  let target := interactiveWindow.bind fun w => w.notebookUri
  match env.notebookDocuments.find? fun d =>
      match target with
      | some u => d == u
      | none => false with
  | none => none
  | some d => env.kernelNotebook d

/-- The `activeNotebook` getter:
`notebookEditorProvider.activeEditor?.notebook || getActiveInteractiveWindowNotebook()`. -/
def activeNotebook {Nb : Type} (env : WatcherEnv Nb) : Option Nb :=
  match env.activeEditor with
  | some ed =>
      match ed.notebook with
      | some nb => some nb
      | none => getActiveInteractiveWindowNotebook env
  | none => getActiveInteractiveWindowNotebook env

/-- `isActiveNotebookEvent`: the active editor's file is the same path as the
event's resource, or the active interactive window's notebookUri is. -/
def isActiveNotebookEvent {Nb : Type} (same : SameRel) (env : WatcherEnv Nb)
    (ev : KernelStateEventArgs) : Bool :=
  (match env.activeEditor with
   | some ed => same ed.file ev.resource
   | none => false) ||
  (match (getActiveInteractiveWindow env).bind fun w => w.notebookUri with
   | some w => same w ev.resource
   | none => false)

/-- `handleExecute`: on a non-silent execution, update the tracker when the
execution order is defined, and fire `onDidExecuteActiveNotebook` with that
order when the event is on the active notebook. Returns the new tracker and
the fired payload (none when nothing fires). -/
def handleExecute {Nb : Type} (same : SameRel) (env : WatcherEnv Nb)
    (tracker : List IExecutionCountEntry) (ev : KernelStateEventArgs) :
    List IExecutionCountEntry × Option Nat :=
  if isNonSilentExecution ev then
    let tracker' :=
      match eventExecutionOrder ev with
      | some n => updateExecutionCount same tracker ev.resource n
      | none => tracker
    let fired :=
      if isActiveNotebookEvent same env ev then
        match eventExecutionOrder ev with
        | some n => some n
        | none => none
      else none
    (tracker', fired)
  else (tracker, none)

/-- `handleRestart`: delete the tracked count for the event's resource, and
fire `onDidRestartActiveNotebook` (the boolean) when the event is on the
active notebook. -/
def handleRestart {Nb : Type} (same : SameRel) (env : WatcherEnv Nb)
    (tracker : List IExecutionCountEntry) (ev : KernelStateEventArgs) :
    List IExecutionCountEntry × Bool :=
  (deleteExecutionCount same tracker ev.resource, isActiveNotebookEvent same env ev)

/-- `notebookEditorClosed`: remove the closed editor's file from the tracker. -/
def notebookEditorClosed (same : SameRel) (tracker : List IExecutionCountEntry)
    (editorFile : Uri) : List IExecutionCountEntry :=
  deleteExecutionCount same tracker editorFile

/-- Folding `handleExecute` over a sequence of kernel execution events,
keeping the tracker. -/
def applyExecutes {Nb : Type} (same : SameRel) (env : WatcherEnv Nb)
    (evs : List KernelStateEventArgs) (tracker : List IExecutionCountEntry) :
    List IExecutionCountEntry :=
  evs.foldl (fun t ev => (handleExecute same env t ev).1) tracker

/-- The execution order of the last non-silent executed cell for a uri in a
sequence of events (later events take precedence). -/
def lastExecutedOrder (same : SameRel) (u : Uri) :
    List KernelStateEventArgs → Option Nat
  | [] => none
  | ev :: rest =>
      match lastExecutedOrder same u rest with
      | some n => some n
      | none =>
          if isNonSilentExecution ev && same u ev.resource then
            eventExecutionOrder ev
          else none

/-! Hover provider (hoverProvider.ts). -/

/-- `Identifiers.EmptyFileName` sentinel from constants. -/
def EmptyFileName : String := "2DB9B899-6519-4E1B-88B0-FA728A274115"

/-- `toLocaleLowerCase`: lower-case every character. -/
def toLowerString (s : String) : String := String.mk (s.data.map Char.toLower)

/-- The hover provider's mutable fields: the `runFiles` set of lower-cased
file paths and whether the hover-provider registration exists. -/
structure HoverProviderState where
  runFiles : List String
  hoverRegistered : Bool
  deriving Repr, DecidableEq

/-- `preExecute(cell, silent)`. The outcome of the fallible
`registerHoverProvider` host call is a parameter; the result pairs the new
state with the error logged by `traceError` in the catch block (none when
nothing was thrown). All exits are `Except.ok`: the try/catch never lets an
exception propagate. -/
def preExecute (registerOutcome : Except String Unit)
    (st : HoverProviderState) (cellFile : String) (silent : Bool) :
    Except String (HoverProviderState × Option String) :=
  if !silent && cellFile != "" && cellFile != EmptyFileName then
    if st.runFiles.contains (toLowerString cellFile) then
      -- size unchanged: no initializeHoverProvider call
      Except.ok (st, none)
    else
      -- size changed: initializeHoverProvider
      if st.hoverRegistered then
        Except.ok ({ st with runFiles := (toLowerString cellFile) :: st.runFiles }, none)
      else
        match registerOutcome with
        | Except.ok _ =>
            Except.ok ({ runFiles := (toLowerString cellFile) :: st.runFiles,
                         hoverRegistered := true }, none)
        | Except.error e =>
            Except.ok ({ st with runFiles := (toLowerString cellFile) :: st.runFiles },
              some e)
  else Except.ok (st, none)

/-- `postExecute`: `noop()`. -/
def postExecute (st : HoverProviderState) (_cellFile : String)
    (_silent : Bool) : Except String HoverProviderState :=
  Except.ok st

/-- A hover result (markdown contents). -/
structure Hover where
  contents : List String
  deriving Repr, DecidableEq

/-- A promise modelled by its settle time in milliseconds and resolved
value. -/
structure TimedValue (α : Type) where
  time : Nat
  value : α
  deriving Repr, DecidableEq

/-- `Promise.race` of two promises: the earlier settles first; on a tie the
first listed wins. -/
def promiseRaceTwo {α : Type} (a b : TimedValue α) : TimedValue α :=
  if a.time ≤ b.time then a else b

/-- The fixed hover timeout in milliseconds. -/
def hoverTimeoutMs : Nat := 300

/-- `timeoutHandler`: sleep 300 ms, then resolve to null. -/
def timeoutHandlerPromise : TimedValue (Option Hover) :=
  { time := hoverTimeoutMs, value := none }

/-- JavaScript runtime values as far as truthiness is concerned: null (or
undefined) versus an object reference such as a pending Promise. -/
inductive JsRuntimeValue where
  | nullValue
  | objectValue
  deriving Repr, DecidableEq

/-- JavaScript truthiness: null/undefined are falsy, object references are
truthy. -/
def jsTruthy : JsRuntimeValue → Bool
  | JsRuntimeValue.nullValue => false
  | JsRuntimeValue.objectValue => true

/-- `provideHover`: race the variable-hover lookup against the 300 ms
timeout, and send telemetry whose `isResultNull` property is `!!result`
evaluated on the still-pending Promise object returned by `Promise.race`.
Returns the raced promise and the telemetry flag. -/
def provideHover (lookup : TimedValue (Option Hover)) :
    TimedValue (Option Hover) × Bool :=
  let result := JsRuntimeValue.objectValue
  (promiseRaceTwo timeoutHandlerPromise lookup, jsTruthy result)

/-- The tracker-mutating operations of the watcher: a direct update, a direct
delete, a kernel restart, and a notebook-editor close. -/
inductive TrackerOp where
  | update (uri : Uri) (n : Nat)
  | delete (uri : Uri)
  | restart (ev : KernelStateEventArgs)
  | editorClosed (file : Uri)

/-- Apply one tracker operation to the `_executionCountTracker` list. -/
def applyTrackerOp {Nb : Type} (same : SameRel) (env : WatcherEnv Nb)
    (t : List IExecutionCountEntry) : TrackerOp → List IExecutionCountEntry
  | TrackerOp.update u n => updateExecutionCount same t u n
  | TrackerOp.delete u => deleteExecutionCount same t u
  | TrackerOp.restart ev => (handleRestart same env t ev).1
  | TrackerOp.editorClosed f => notebookEditorClosed same t f

/-- No two tracker entries have the same path. -/
def distinctPaths (same : SameRel) (t : List IExecutionCountEntry) : Prop :=
  List.Pairwise (fun a b => same a.uri b.uri = false) t

/-- A concrete arePathsSame instance: plain string equality (a case-sensitive
file system). -/
def beqPaths : SameRel := fun a b => a == b

/-- A concrete host environment with nothing active (notebooks are numbers). -/
def emptyEnv : WatcherEnv Nat where
  activeEditor := none
  activeTextEditorUri := none
  interactiveWindows := fun _ => none
  notebookDocuments := []
  kernelNotebook := fun _ => none

/-- A concrete notebook editor whose notebook is number 7. -/
def edNb : NotebookEditor Nat := { file := "nb.ipynb", notebook := some 7 }

/-- A concrete environment whose active editor is `edNb`. -/
def envEd : WatcherEnv Nat where
  activeEditor := some edNb
  activeTextEditorUri := none
  interactiveWindows := fun _ => none
  notebookDocuments := []
  kernelNotebook := fun _ => none

/-- A concrete environment with no notebook editor but an active interactive
window whose notebook document is number 9. -/
def envIW : WatcherEnv Nat where
  activeEditor := none
  activeTextEditorUri := some "doc.py"
  interactiveWindows := fun u =>
    if u == "doc.py" then some { notebookUri := some "iw-nb" } else none
  notebookDocuments := ["iw-nb"]
  kernelNotebook := fun u => if u == "iw-nb" then some 9 else none

/-- Concrete tracker entries and a two-entry tracker. -/
def entryA : IExecutionCountEntry := { uri := "a.ipynb", executionCount := 3 }

def entryB : IExecutionCountEntry := { uri := "b.ipynb", executionCount := 4 }

def trackerAB : List IExecutionCountEntry := [entryA, entryB]

/-- A non-silent executed-cell event for a notebook, with a given order. -/
def mkExecEvent (u : Uri) (n : Nat) : KernelStateEventArgs :=
  { resource := u, state := KernelState.executed,
    cell := some { executionSummary := some { executionOrder := some n } },
    silent := some false }

/-- A concrete sequence of non-silent execution events. -/
def sampleEvents : List KernelStateEventArgs :=
  [mkExecEvent "a.ipynb" 1, mkExecEvent "b.ipynb" 4, mkExecEvent "a.ipynb" 2]

/-- A restart event for the file of `edNb`. -/
def evRestartNb : KernelStateEventArgs :=
  { resource := "nb.ipynb", state := KernelState.restarted,
    cell := none, silent := none }

/-- An executed-cell event whose execution order is zero. -/
def evZeroOrder : KernelStateEventArgs :=
  { resource := "z.ipynb", state := KernelState.executed,
    cell := some { executionSummary := some { executionOrder := some 0 } },
    silent := some false }

/-! Auxiliary lemmas about the execution-count tracker. -/

theorem getExecutionCount_nil (same : SameRel) (u : Uri) :
    getExecutionCount same [] u = none := rfl

theorem getExecutionCount_cons (same : SameRel) (e : IExecutionCountEntry)
    (t : List IExecutionCountEntry) (u : Uri) :
    getExecutionCount same (e :: t) u =
      if same u e.uri then some e else getExecutionCount same t u := by
  by_cases h : same u e.uri
  · simp [getExecutionCount, List.find?_cons, h]
  · simp [getExecutionCount, List.find?_cons, h]

theorem updateExecutionCount_nil (same : SameRel) (r : Uri) (n : Nat) :
    updateExecutionCount same [] r n = [{ uri := r, executionCount := n }] := rfl

theorem updateExecutionCount_cons (same : SameRel) (e : IExecutionCountEntry)
    (t : List IExecutionCountEntry) (r : Uri) (n : Nat) :
    updateExecutionCount same (e :: t) r n =
      if same r e.uri then { e with executionCount := n } :: t
      else e :: updateExecutionCount same t r n := by
  by_cases h : same r e.uri
  · simp [updateExecutionCount, getExecutionCount, List.find?_cons, h,
      setFirstExecutionCount]
  · cases hf : List.find? (fun v => same r v.uri) t with
    | none =>
        simp [updateExecutionCount, getExecutionCount, List.find?_cons, h, hf,
          setFirstExecutionCount]
    | some x =>
        simp [updateExecutionCount, getExecutionCount, List.find?_cons, h, hf,
          setFirstExecutionCount]

/-- From `same u r` and `¬ same r v`, conclude `¬ same u v` (equivalence). -/
theorem same_false_of_left (same : SameRel) (h : PathEquiv same) {u r v : Uri}
    (hur : same u r = true) (hrv : same r v = false) : same u v = false := by
  cases huv : same u v with
  | false => rfl
  | true =>
      have h1 : same r u = true := by rw [h.2.1 r u]; exact hur
      have h2 : same r v = true := h.2.2 r u v h1 huv
      rw [hrv] at h2
      exact Bool.noConfusion h2

theorem getExecutionCountValue_update_same (same : SameRel) (h : PathEquiv same)
    (u r : Uri) (n : Nat) (hur : same u r = true) :
    ∀ t, getExecutionCountValue same (updateExecutionCount same t r n) u = some n := by
  intro t
  induction t with
  | nil =>
      simp [updateExecutionCount_nil, getExecutionCountValue,
        getExecutionCount_cons, hur]
  | cons e t ih =>
      rw [updateExecutionCount_cons]
      cases hre : same r e.uri with
      | true =>
          have hue : same u e.uri = true := h.2.2 u r e.uri hur hre
          simp [getExecutionCountValue, getExecutionCount_cons, hue]
      | false =>
          have hue : same u e.uri = false := same_false_of_left same h hur hre
          simpa [getExecutionCountValue, getExecutionCount_cons, hue] using ih

theorem getExecutionCount_update_other (same : SameRel) (h : PathEquiv same)
    (u r : Uri) (n : Nat) (hur : same u r = false) :
    ∀ t, getExecutionCount same (updateExecutionCount same t r n) u =
      getExecutionCount same t u := by
  intro t
  induction t with
  | nil =>
      simp [updateExecutionCount_nil, getExecutionCount_cons, hur,
        getExecutionCount_nil]
  | cons e t ih =>
      rw [updateExecutionCount_cons]
      cases hre : same r e.uri with
      | true =>
          have hru : same r u = false := by rw [h.2.1 r u]; exact hur
          have hue : same u e.uri = false := by
            cases huv : same u e.uri with
            | false => rfl
            | true =>
                have h1 : same e.uri u = true := by
                  rw [h.2.1 e.uri u]; exact huv
                have h2 : same r u = true := h.2.2 r e.uri u hre h1
                rw [hru] at h2
                exact Bool.noConfusion h2
          simp [getExecutionCount_cons, hue]
      | false =>
          cases hue : same u e.uri with
          | true => simp [getExecutionCount_cons, hue]
          | false => simpa [getExecutionCount_cons, hue] using ih

theorem deleteExecutionCount_nil (same : SameRel) (r : Uri) :
    deleteExecutionCount same [] r = [] := rfl

theorem deleteExecutionCount_cons (same : SameRel) (e : IExecutionCountEntry)
    (t : List IExecutionCountEntry) (r : Uri) :
    deleteExecutionCount same (e :: t) r =
      if same r e.uri then deleteExecutionCount same t r
      else e :: deleteExecutionCount same t r := by
  cases hre : same r e.uri with
  | true => simp [deleteExecutionCount, List.filter_cons, hre]
  | false => simp [deleteExecutionCount, List.filter_cons, hre]

theorem getExecutionCount_delete_other (same : SameRel) (h : PathEquiv same)
    (u r : Uri) (hur : same u r = false) :
    ∀ t, getExecutionCount same (deleteExecutionCount same t r) u =
      getExecutionCount same t u := by
  intro t
  induction t with
  | nil => rfl
  | cons e t ih =>
      rw [deleteExecutionCount_cons]
      cases hre : same r e.uri with
      | true =>
          have hue : same u e.uri = false := by
            cases huv : same u e.uri with
            | false => rfl
            | true =>
                have h1 : same e.uri r = true := by
                  rw [h.2.1 e.uri r]; exact hre
                have h2 : same u r = true := h.2.2 u e.uri r huv h1
                rw [hur] at h2
                exact Bool.noConfusion h2
          simpa [getExecutionCount_cons, hue] using ih
      | false =>
          cases hue : same u e.uri with
          | true => simp [getExecutionCount_cons, hue]
          | false => simpa [getExecutionCount_cons, hue] using ih

/-- A non-silent execution always carries a nonzero execution order. -/
theorem eventExecutionOrder_of_nonSilent (ev : KernelStateEventArgs)
    (h : isNonSilentExecution ev = true) :
    ∃ n, eventExecutionOrder ev = some n ∧ n ≠ 0 := by
  cases hs : ev.state with
  | restarted =>
      unfold isNonSilentExecution at h
      rw [hs] at h
      cases hc : ev.cell <;> rw [hc] at h <;> simp at h
  | executed =>
      cases hc : ev.cell with
      | none =>
          unfold isNonSilentExecution at h
          rw [hs, hc] at h
          simp at h
      | some c =>
          unfold isNonSilentExecution at h
          rw [hs, hc] at h
          simp only [Bool.and_eq_true] at h
          cases ho : c.executionSummary.bind fun s => s.executionOrder with
          | none =>
              rw [ho] at h
              simp [natOptTruthy] at h
          | some n =>
              refine ⟨n, ?_, ?_⟩
              · simp [eventExecutionOrder, hc, ho]
              · rw [ho] at h
                simpa [natOptTruthy] using h.1

/-- Looking up a uri after one `handleExecute` step: a matching non-silent
execution installs its execution order, anything else leaves the lookup
unchanged. -/
theorem handleExecute_lookup_step {Nb : Type} (same : SameRel)
    (h : PathEquiv same) (env : WatcherEnv Nb)
    (t : List IExecutionCountEntry) (ev : KernelStateEventArgs) (u : Uri) :
    getExecutionCountValue same (handleExecute same env t ev).1 u =
      if isNonSilentExecution ev && same u ev.resource then eventExecutionOrder ev
      else getExecutionCountValue same t u := by
  cases hns : isNonSilentExecution ev with
  | false => simp [handleExecute, hns]
  | true =>
      obtain ⟨n, ho, hn0⟩ := eventExecutionOrder_of_nonSilent ev hns
      cases hu : same u ev.resource with
      | true =>
          rw [ho]
          simp only [handleExecute, hns, if_true, ho, Bool.true_and, hu]
          exact getExecutionCountValue_update_same same h u ev.resource n hu t
      | false =>
          simp only [handleExecute, hns, if_true, ho, Bool.true_and, hu,
            Bool.and_false, if_false]
          unfold getExecutionCountValue
          rw [getExecutionCount_update_other same h u ev.resource n hu t]
          simp

/-- Folding `handleExecute` over events: the lookup for a uri is the last
relevant execution order, falling back to the starting tracker. -/
theorem applyExecutes_lookup {Nb : Type} (same : SameRel) (h : PathEquiv same)
    (env : WatcherEnv Nb) (u : Uri) :
    ∀ (evs : List KernelStateEventArgs) (t : List IExecutionCountEntry),
      getExecutionCountValue same (applyExecutes same env evs t) u =
        match lastExecutedOrder same u evs with
        | some n => some n
        | none => getExecutionCountValue same t u := by
  intro evs
  induction evs with
  | nil => intro t; rfl
  | cons ev rest ih =>
      intro t
      have happ : applyExecutes same env (ev :: rest) t =
          applyExecutes same env rest (handleExecute same env t ev).1 := rfl
      rw [happ, ih, handleExecute_lookup_step same h env t ev u]
      cases hl : lastExecutedOrder same u rest with
      | some m => simp [lastExecutedOrder, hl]
      | none =>
          cases hc : isNonSilentExecution ev && same u ev.resource with
          | true =>
              have hns : isNonSilentExecution ev = true := by
                have h2 := hc
                rw [Bool.and_eq_true] at h2
                exact h2.1
              obtain ⟨n, ho, hn0⟩ := eventExecutionOrder_of_nonSilent ev hns
              simp [lastExecutedOrder, hl, hc, ho]
          | false => simp [lastExecutedOrder, hl, hc]

/-- `setFirstExecutionCount` never changes the list of uris. -/
theorem setFirstExecutionCount_map_uri (same : SameRel) (u : Uri) (n : Nat) :
    ∀ t : List IExecutionCountEntry,
      (setFirstExecutionCount same u n t).map (fun e => e.uri) =
        t.map fun e => e.uri := by
  intro t
  induction t with
  | nil => rfl
  | cons e rest ih =>
      unfold setFirstExecutionCount
      cases hx : same u e.uri with
      | true => simp [hx]
      | false => simp [hx, ih]

/-- `distinctPaths` only depends on the uris of the entries. -/
theorem distinctPaths_iff_map (same : SameRel) (t : List IExecutionCountEntry) :
    distinctPaths same t ↔
      List.Pairwise (fun x y => same x y = false) (t.map fun e => e.uri) := by
  unfold distinctPaths
  rw [List.pairwise_map]

/-- `updateExecutionCount` preserves path distinctness. -/
theorem distinctPaths_update (same : SameRel) (h : PathEquiv same)
    (t : List IExecutionCountEntry) (u : Uri) (n : Nat)
    (hd : distinctPaths same t) :
    distinctPaths same (updateExecutionCount same t u n) := by
  unfold updateExecutionCount
  cases hf : getExecutionCount same t u with
  | none =>
      unfold distinctPaths
      rw [List.pairwise_append]
      refine ⟨hd, List.pairwise_singleton _ _, ?_⟩
      intro a ha b hb
      simp only [List.mem_singleton] at hb
      subst hb
      have hnone : ∀ e ∈ t, ¬ (same u e.uri = true) := by
        intro e he
        exact List.find?_eq_none.mp hf e he
      have hfa : same u a.uri = false := by
        cases hx : same u a.uri with
        | false => rfl
        | true => exact absurd hx (hnone a ha)
      show same a.uri u = false
      rw [h.2.1 a.uri u]
      exact hfa
  | some x =>
      rw [distinctPaths_iff_map, setFirstExecutionCount_map_uri]
      rw [← distinctPaths_iff_map]
      exact hd

/-- `deleteExecutionCount` preserves path distinctness. -/
theorem distinctPaths_delete (same : SameRel) (t : List IExecutionCountEntry)
    (u : Uri) (hd : distinctPaths same t) :
    distinctPaths same (deleteExecutionCount same t u) :=
  List.Pairwise.sublist (List.filter_sublist t) hd

/-- Every tracker operation preserves path distinctness. -/
theorem distinctPaths_applyTrackerOp {Nb : Type} (same : SameRel)
    (h : PathEquiv same) (env : WatcherEnv Nb)
    (t : List IExecutionCountEntry) (op : TrackerOp)
    (hd : distinctPaths same t) :
    distinctPaths same (applyTrackerOp same env t op) := by
  cases op with
  | update u n => exact distinctPaths_update same h t u n hd
  | delete u => exact distinctPaths_delete same t u hd
  | restart ev => exact distinctPaths_delete same t ev.resource hd
  | editorClosed f => exact distinctPaths_delete same t f hd

/-- Plain string equality is an equivalence on paths. -/
theorem beqPathEquiv : PathEquiv beqPaths := by
  refine ⟨fun a => ?_, fun a b => ?_, fun a b c hab hbc => ?_⟩
  · simp [beqPaths]
  · by_cases hx : a = b
    · subst hx; rfl
    · have h1 : beqPaths a b = false := by simp [beqPaths, hx]
      have h2 : beqPaths b a = false := by
        simp only [beqPaths, beq_eq_false_iff_ne, ne_eq]
        exact fun he => hx he.symm
      rw [h1, h2]
  · have h1 : a = b := by simpa [beqPaths] using hab
    have h2 : b = c := by simpa [beqPaths] using hbc
    simp [beqPaths, h1, h2]

/-- C1: assuming arePathsSame is an equivalence, after any sequence of
kernel execution events handled by `handleExecute` starting from the empty
tracker, `getExecutionCount` maps each uri to exactly the execution order of
the last non-silent executed cell seen for that uri (and to nothing when no
such cell was seen): updates overwrite the matching entry and insert a fresh
one otherwise. -/
theorem c1_tracker_tracks_last_nonsilent_execution {Nb : Type}
    (same : SameRel) (h : PathEquiv same) (env : WatcherEnv Nb)
    (evs : List KernelStateEventArgs) (u : Uri) :
    getExecutionCountValue same (applyExecutes same env evs []) u =
      lastExecutedOrder same u evs := by
  rw [applyExecutes_lookup same h env u evs []]
  cases hl : lastExecutedOrder same u evs with
  | some n => rfl
  | none => rfl

theorem c1_tracker_tracks_last_nonsilent_execution_witness :
    PathEquiv beqPaths ∧
    getExecutionCountValue beqPaths
        (applyExecutes beqPaths emptyEnv sampleEvents []) "a.ipynb" =
      lastExecutedOrder beqPaths "a.ipynb" sampleEvents ∧
    lastExecutedOrder beqPaths "a.ipynb" sampleEvents = some 2 :=
  ⟨beqPathEquiv,
   c1_tracker_tracks_last_nonsilent_execution beqPaths beqPathEquiv emptyEnv
     sampleEvents "a.ipynb",
   by decide⟩

/-- C2: the `activeNotebook` getter prefers the notebook editor over the
interactive window: whenever the active editor has a notebook that notebook
is returned; only when it does not is the active interactive window's
notebook (looked up via the active text editor's document uri) returned; and
when neither exists the result is undefined. -/
theorem c2_activeNotebook_prefers_editor {Nb : Type} (env : WatcherEnv Nb) :
    (∀ ed nb, env.activeEditor = some ed → ed.notebook = some nb →
        activeNotebook env = some nb) ∧
    (env.activeEditor.bind (fun ed => ed.notebook) = none →
        activeNotebook env = getActiveInteractiveWindowNotebook env) ∧
    (env.activeEditor.bind (fun ed => ed.notebook) = none →
        getActiveInteractiveWindowNotebook env = none →
        activeNotebook env = none) := by
  refine ⟨?_, ?_, ?_⟩
  · intro ed nb hed hnb
    simp [activeNotebook, hed, hnb]
  · intro hnone
    cases hed : env.activeEditor with
    | none => simp [activeNotebook, hed]
    | some ed =>
        rw [hed] at hnone
        simp at hnone
        simp [activeNotebook, hed, hnone]
  · intro hnone hiw
    cases hed : env.activeEditor with
    | none => simp [activeNotebook, hed, hiw]
    | some ed =>
        rw [hed] at hnone
        simp at hnone
        simp [activeNotebook, hed, hnone, hiw]

theorem c2_activeNotebook_prefers_editor_witness :
    activeNotebook envEd = some 7 ∧
    activeNotebook envIW = getActiveInteractiveWindowNotebook envIW ∧
    activeNotebook emptyEnv = none :=
  ⟨(c2_activeNotebook_prefers_editor envEd).1 edNb 7 rfl rfl,
   (c2_activeNotebook_prefers_editor envIW).2.1 rfl,
   (c2_activeNotebook_prefers_editor emptyEnv).2.2 rfl rfl⟩

/-- C3: `handleRestart` keeps exactly the tracker entries whose path differs
from the event's resource, and fires `onDidRestartActiveNotebook` if and only
if the resource matches the active editor's file or the active interactive
window's notebookUri. -/
theorem c3_handleRestart_deletes_and_fires_iff_active {Nb : Type}
    (same : SameRel) (env : WatcherEnv Nb)
    (tracker : List IExecutionCountEntry) (ev : KernelStateEventArgs) :
    (∀ e, e ∈ (handleRestart same env tracker ev).1 ↔
        e ∈ tracker ∧ same ev.resource e.uri = false) ∧
    ((handleRestart same env tracker ev).2 = true ↔
      (∃ ed, env.activeEditor = some ed ∧ same ed.file ev.resource = true) ∨
      (∃ w, (getActiveInteractiveWindow env).bind (fun x => x.notebookUri) = some w ∧
        same w ev.resource = true)) := by
  constructor
  · intro e
    simp [handleRestart, deleteExecutionCount, List.mem_filter]
  · show isActiveNotebookEvent same env ev = true ↔ _
    cases hed : env.activeEditor with
    | none =>
        cases hiw : (getActiveInteractiveWindow env).bind fun x => x.notebookUri with
        | none => simp [isActiveNotebookEvent, hed, hiw]
        | some w => simp [isActiveNotebookEvent, hed, hiw]
    | some ed =>
        cases hiw : (getActiveInteractiveWindow env).bind fun x => x.notebookUri with
        | none => simp [isActiveNotebookEvent, hed, hiw]
        | some w => simp [isActiveNotebookEvent, hed, hiw]

theorem c3_handleRestart_deletes_and_fires_iff_active_witness :
    (handleRestart beqPaths envEd trackerAB evRestartNb).2 = true ∧
    entryB ∈ (handleRestart beqPaths envEd trackerAB evRestartNb).1 := by
  have hp := c3_handleRestart_deletes_and_fires_iff_active beqPaths envEd
    trackerAB evRestartNb
  refine ⟨hp.2.mpr (Or.inl ⟨edNb, rfl, by decide⟩), (hp.1 entryB).mpr ?_⟩
  exact ⟨by decide, by decide⟩

/-- C4: `onDidExecuteActiveNotebook` fires exactly on non-silent executed
events for the active notebook, with the executed cell's execution order as
payload; a non-silent event for a non-active notebook updates the tracker but
fires nothing. -/
theorem c4_handleExecute_fires_iff_active {Nb : Type} (same : SameRel)
    (env : WatcherEnv Nb) (tracker : List IExecutionCountEntry)
    (ev : KernelStateEventArgs) :
    ((handleExecute same env tracker ev).2 ≠ none ↔
      isNonSilentExecution ev = true ∧ isActiveNotebookEvent same env ev = true) ∧
    (∀ n, isNonSilentExecution ev = true → eventExecutionOrder ev = some n →
      (isActiveNotebookEvent same env ev = true →
        (handleExecute same env tracker ev).2 = some n) ∧
      (isActiveNotebookEvent same env ev = false →
        handleExecute same env tracker ev =
          (updateExecutionCount same tracker ev.resource n, none))) := by
  constructor
  · cases hns : isNonSilentExecution ev with
    | false => simp [handleExecute, hns]
    | true =>
        obtain ⟨n, ho, hn0⟩ := eventExecutionOrder_of_nonSilent ev hns
        cases hact : isActiveNotebookEvent same env ev with
        | true => simp [handleExecute, hns, hact, ho]
        | false => simp [handleExecute, hns, hact, ho]
  · intro n hns ho
    constructor
    · intro hact
      simp [handleExecute, hns, hact, ho]
    · intro hact
      simp [handleExecute, hns, hact, ho]

theorem c4_handleExecute_fires_iff_active_witness :
    (handleExecute beqPaths envEd [] (mkExecEvent "nb.ipynb" 5)).2 = some 5 ∧
    handleExecute beqPaths envEd [] (mkExecEvent "b.ipynb" 4) =
      (updateExecutionCount beqPaths [] "b.ipynb" 4, none) := by
  have h1 := c4_handleExecute_fires_iff_active beqPaths envEd []
    (mkExecEvent "nb.ipynb" 5)
  have h2 := c4_handleExecute_fires_iff_active beqPaths envEd []
    (mkExecEvent "b.ipynb" 4)
  refine ⟨(h1.2 5 (by decide) (by decide)).1 (by decide), ?_⟩
  exact (h2.2 4 (by decide) (by decide)).2 (by decide)

/-- C9: an execution event whose cell has execution order 0 fails the
truthiness test in `isNonSilentExecution`, so `handleExecute` neither updates
the tracker nor fires, even for a non-silent executed event. -/
theorem c9_zero_execution_order_rejected {Nb : Type} (same : SameRel)
    (env : WatcherEnv Nb) (tracker : List IExecutionCountEntry)
    (ev : KernelStateEventArgs) (h0 : eventExecutionOrder ev = some 0) :
    isNonSilentExecution ev = false ∧
    handleExecute same env tracker ev = (tracker, none) := by
  obtain ⟨c, hc⟩ : ∃ c, ev.cell = some c := by
    cases hcell : ev.cell with
    | none => rw [eventExecutionOrder, hcell] at h0; simp at h0
    | some c => exact ⟨c, rfl⟩
  have hchain : (c.executionSummary.bind fun s => s.executionOrder) = some 0 := by
    rw [eventExecutionOrder, hc] at h0
    simpa using h0
  have hns : isNonSilentExecution ev = false := by
    cases hs : ev.state with
    | restarted => simp [isNonSilentExecution, hs, hc]
    | executed => simp [isNonSilentExecution, hs, hc, hchain, natOptTruthy]
  exact ⟨hns, by simp [handleExecute, hns]⟩

theorem c9_zero_execution_order_rejected_witness :
    eventExecutionOrder evZeroOrder = some 0 ∧
    evZeroOrder.silent = some false ∧
    evZeroOrder.state = KernelState.executed ∧
    isNonSilentExecution evZeroOrder = false ∧
    handleExecute beqPaths envEd trackerAB evZeroOrder = (trackerAB, none) := by
  have hp := c9_zero_execution_order_rejected beqPaths envEd trackerAB
    evZeroOrder (by decide)
  exact ⟨by decide, by decide, by decide, hp.1, hp.2⟩

/-- C5: `preExecute` always resolves (`Except.ok`) even when the registration
step throws; a thrown exception surfaces only as the logged error, and
`postExecute` is a noop that always resolves with the state unchanged. -/
theorem c5_preExecute_swallows_exceptions (registerOutcome : Except String Unit)
    (st : HoverProviderState) (cellFile : String) (silent : Bool) :
    (∃ res, preExecute registerOutcome st cellFile silent = Except.ok res) ∧
    (∀ e, registerOutcome = Except.error e →
      (∃ s, preExecute registerOutcome st cellFile silent = Except.ok (s, none)) ∨
      (∃ s, preExecute registerOutcome st cellFile silent =
        Except.ok (s, some e))) ∧
    postExecute st cellFile silent = Except.ok st := by
  refine ⟨?_, ?_, rfl⟩
  · unfold preExecute
    split
    · split
      · exact ⟨_, rfl⟩
      · split
        · exact ⟨_, rfl⟩
        · split
          · exact ⟨_, rfl⟩
          · exact ⟨_, rfl⟩
    · exact ⟨_, rfl⟩
  · intro e he
    subst he
    unfold preExecute
    split
    · split
      · left; exact ⟨_, rfl⟩
      · split
        · left; exact ⟨_, rfl⟩
        · right; exact ⟨_, rfl⟩
    · left; exact ⟨_, rfl⟩

theorem c5_preExecute_swallows_exceptions_witness :
    ((∃ s, preExecute (Except.error "boom") { runFiles := [], hoverRegistered := false }
        "Cell.py" false = Except.ok (s, none)) ∨
     (∃ s, preExecute (Except.error "boom") { runFiles := [], hoverRegistered := false }
        "Cell.py" false = Except.ok (s, some "boom"))) ∧
    preExecute (Except.error "boom") { runFiles := [], hoverRegistered := false }
        "Cell.py" false =
      Except.ok ({ runFiles := ["cell.py"], hoverRegistered := false }, some "boom") ∧
    postExecute { runFiles := [], hoverRegistered := false } "Cell.py" false =
      Except.ok { runFiles := [], hoverRegistered := false } := by
  have hp := c5_preExecute_swallows_exceptions (Except.error "boom")
    { runFiles := [], hoverRegistered := false } "Cell.py" false
  exact ⟨hp.2.1 "boom" rfl, by rfl, hp.2.2⟩

/-- C6: `provideHover` races the variable-hover lookup against a fixed 300 ms
timeout that resolves to null, so a lookup slower than 300 ms yields null. -/
theorem c6_provideHover_timeout_returns_null (lookup : TimedValue (Option Hover))
    (h : hoverTimeoutMs < lookup.time) :
    (provideHover lookup).1 = timeoutHandlerPromise ∧
    (provideHover lookup).1.value = none := by
  have hle : timeoutHandlerPromise.time ≤ lookup.time := le_of_lt h
  have hrace : promiseRaceTwo timeoutHandlerPromise lookup = timeoutHandlerPromise := by
    unfold promiseRaceTwo
    rw [if_pos hle]
  refine ⟨hrace, ?_⟩
  show (promiseRaceTwo timeoutHandlerPromise lookup).value = none
  rw [hrace]
  rfl

theorem c6_provideHover_timeout_returns_null_witness :
    hoverTimeoutMs < 301 ∧
    (provideHover { time := 301, value := some { contents := ["x: int"] } }).1.value
      = none :=
  ⟨by decide,
   (c6_provideHover_timeout_returns_null
     { time := 301, value := some { contents := ["x: int"] } } (by decide)).2⟩

/-- C7: assuming arePathsSame is an equivalence, updating or deleting the
tracked count of one document, closing its editor, or restarting its kernel
never alters the count tracked for a document with a different path. -/
theorem c7_tracker_frame_per_document {Nb : Type} (same : SameRel)
    (h : PathEquiv same) (env : WatcherEnv Nb)
    (tracker : List IExecutionCountEntry) (u u' : Uri) (n : Nat)
    (ev : KernelStateEventArgs) (hdiff : same u' u = false)
    (hres : ev.resource = u) :
    getExecutionCountValue same (updateExecutionCount same tracker u n) u' =
      getExecutionCountValue same tracker u' ∧
    getExecutionCountValue same (deleteExecutionCount same tracker u) u' =
      getExecutionCountValue same tracker u' ∧
    getExecutionCountValue same (notebookEditorClosed same tracker u) u' =
      getExecutionCountValue same tracker u' ∧
    getExecutionCountValue same (handleRestart same env tracker ev).1 u' =
      getExecutionCountValue same tracker u' := by
  subst hres
  have h1 := getExecutionCount_update_other same h u' ev.resource n hdiff tracker
  have h2 := getExecutionCount_delete_other same h u' ev.resource hdiff tracker
  refine ⟨?_, ?_, ?_, ?_⟩
  · unfold getExecutionCountValue
    rw [h1]
  · unfold getExecutionCountValue
    rw [h2]
  · unfold getExecutionCountValue notebookEditorClosed
    rw [h2]
  · unfold getExecutionCountValue handleRestart
    rw [h2]

theorem c7_tracker_frame_per_document_witness :
    beqPaths "b.ipynb" "a.ipynb" = false ∧
    getExecutionCountValue beqPaths
        (updateExecutionCount beqPaths trackerAB "a.ipynb" 9) "b.ipynb" =
      getExecutionCountValue beqPaths trackerAB "b.ipynb" ∧
    getExecutionCountValue beqPaths
        (deleteExecutionCount beqPaths trackerAB "a.ipynb") "b.ipynb" =
      getExecutionCountValue beqPaths trackerAB "b.ipynb" ∧
    getExecutionCountValue beqPaths trackerAB "b.ipynb" = some 4 := by
  have hp := c7_tracker_frame_per_document beqPaths beqPathEquiv emptyEnv
    trackerAB "a.ipynb" "b.ipynb" 9
    { resource := "a.ipynb", state := KernelState.restarted, cell := none,
      silent := none }
    (by decide) rfl
  exact ⟨by decide, hp.1, hp.2.1, by decide⟩

/-- C8: assuming arePathsSame is an equivalence, every tracker reachable from
the empty list through updates, deletes, kernel restarts and editor closes
holds at most one entry per document path. -/
theorem c8_tracker_distinct_paths_invariant {Nb : Type} (same : SameRel)
    (h : PathEquiv same) (env : WatcherEnv Nb) (ops : List TrackerOp) :
    distinctPaths same (ops.foldl (applyTrackerOp same env) []) := by
  have hstep : ∀ (l : List TrackerOp) (t : List IExecutionCountEntry),
      distinctPaths same t →
      distinctPaths same (l.foldl (applyTrackerOp same env) t) := by
    intro l
    induction l with
    | nil => intro t hd; exact hd
    | cons op rest ih =>
        intro t hd
        exact ih _ (distinctPaths_applyTrackerOp same h env t op hd)
  exact hstep ops [] List.Pairwise.nil

theorem c8_tracker_distinct_paths_invariant_witness :
    PathEquiv beqPaths ∧
    distinctPaths beqPaths
      ([TrackerOp.update "a.ipynb" 1, TrackerOp.update "a.ipynb" 2,
        TrackerOp.update "b.ipynb" 3, TrackerOp.restart evRestartNb,
        TrackerOp.delete "a.ipynb",
        TrackerOp.editorClosed "b.ipynb"].foldl
        (applyTrackerOp beqPaths emptyEnv) []) :=
  ⟨beqPathEquiv,
   c8_tracker_distinct_paths_invariant beqPaths beqPathEquiv emptyEnv
     [TrackerOp.update "a.ipynb" 1, TrackerOp.update "a.ipynb" 2,
      TrackerOp.update "b.ipynb" 3, TrackerOp.restart evRestartNb,
      TrackerOp.delete "a.ipynb", TrackerOp.editorClosed "b.ipynb"]⟩

/-- C10: the InteractiveFileTooltipsPerf telemetry of `provideHover` always
reports `isResultNull` as true, because `!!result` is evaluated on the
still-pending Promise object (an object is truthy), regardless of whether the
raced hover eventually resolves to null or to a hover. -/
theorem c10_telemetry_isResultNull_always_true (lookup : TimedValue (Option Hover)) :
    (provideHover lookup).2 = true ∧
    (provideHover { time := 400, value := some { contents := ["y"] } }).1.value
      = none ∧
    (provideHover { time := 0, value := some { contents := ["y"] } }).1.value
      = some { contents := ["y"] } := by
  refine ⟨rfl, by decide, by decide⟩
